import Mathlib

/-
Verification development for the awaves surf-forecast service.

Shallow embedding of:
  * apps/api/app/repositories/surf_data_repository.py  (the query engine used
    by the API routers: date/time filtering, nearest-time reduction,
    per-level derivedMetrics normalization, INTERMEDIATE-score sort);
  * apps/api/app/services/surf_dynamodb.py  (the snapshot-cache variant of the
    query engine: full-scan snapshot cache, derived date index, per-date
    result cache);
  * infra/lambda/save/lambda_function.py  (ingestion writer, grade
    derivation, saved-selection change detection and cache invalidation).

Python floats are modelled as exact rationals.  To keep every definition
kernel-executable we use a small non-normalizing fraction type `F`
(numerator over positive denominator) for the arithmetic the code performs,
and relate it to `ℚ` through `toRat` in the statements.
-/

/-- Exact fraction with a positive denominator: the model of a Python float
value.  Arithmetic avoids gcd-normalization so that all operations reduce
inside the kernel. -/
structure F where
  num : Int
  den : ℕ+
deriving DecidableEq, Repr

/-- Build a fraction from a numerator and positive denominator. -/
def mkF (n : Int) (d : ℕ+) : F := ⟨n, d⟩

/-- Numeric value of an `F` as a rational number. -/
def toRat (a : F) : ℚ := (a.num : ℚ) / ((a.den : ℕ) : ℚ)

/-- Difference of two fractions (cross multiplication, no normalization). -/
def F.sub (a b : F) : F := ⟨a.num * ((b.den : ℕ) : Int) - b.num * ((a.den : ℕ) : Int), a.den * b.den⟩

/-- Absolute value of a fraction. -/
def F.absF (a : F) : F := ⟨(a.num.natAbs : Int), a.den⟩

/-- Boolean strict-less comparison of fractions (`a < b`). -/
def F.ltB (a b : F) : Bool := decide (a.num * ((b.den : ℕ) : Int) < b.num * ((a.den : ℕ) : Int))

/-- Boolean less-or-equal comparison of fractions (`a ≤ b`). -/
def F.leB (a b : F) : Bool := decide (a.num * ((b.den : ℕ) : Int) ≤ b.num * ((a.den : ℕ) : Int))

/-- Integer as a fraction. -/
def F.ofInt (n : Int) : F := ⟨n, 1⟩

/- ── Python string helpers (on the character list of a `String`) ───────── -/

/-- Python `s.split(c)` for a single-character separator. -/
def splitOnChar (c : Char) : List Char → List (List Char)
  | [] => [[]]
  | x :: xs =>
    match splitOnChar c xs with
    | h :: t => if x = c then [] :: h :: t else (x :: h) :: t
    | [] => [[x]]

/-- Numeric value of a decimal digit string, `int(s)` on digit-only input
(the only inputs the modelled code feeds to `int`). -/
def digitsVal (l : List Char) : Nat := l.foldl (fun n c => n * 10 + (c.toNat - 48)) 0

/-- Python slice `s[a:b]` (for `0 ≤ a ≤ b`). -/
def pySlice (s : String) (a b : Nat) : String := String.mk ((s.data.drop a).take (b - a))

/-- Python slice `s[a:]`. -/
def pyDrop (s : String) (a : Nat) : String := String.mk (s.data.drop a)

/-- Python `len(s)`. -/
def pyLen (s : String) : Nat := s.data.length

/-- Python `s.startswith(p)`. -/
def hasPfx (s p : String) : Bool := p.data.isPrefixOf s.data

/-- Lexicographic code-point comparison of character lists (Python `<` on str). -/
def strLtAux : List Char → List Char → Bool
  | [], [] => false
  | [], _ :: _ => true
  | _ :: _, [] => false
  | x :: xs, y :: ys =>
    if x.toNat < y.toNat then true
    else if y.toNat < x.toNat then false
    else strLtAux xs ys

/-- Python string comparison `a < b`. -/
def strLtB (a b : String) : Bool := strLtAux a.data b.data

/-- Python `int(s.replace(":", ""))` on an `HH:MM`-shaped digit string. -/
def hhmmVal (s : String) : Int := (digitsVal (s.data.filter (fun c => c ≠ ':')) : Int)

/-- Python `f"{h:02d}"` for a non-negative hour. -/
def pad2 (h : Nat) : String := if h < 10 then "0" ++ toString h else toString h

/-- Python truthiness of an optional string: `None` and `""` are falsy.
Returns the normalized option (`none` when falsy). -/
def truthyS : Option String → Option String
  | none => none
  | some s => if s = "" then none else some s

/-- Python `float(s)`: parse `[-]digits[.digits]` into a fraction; `none`
models `ValueError` (scientific notation and other exotic float syntax the
repository never stores are out of the modelled subset). -/
def parseFloatOpt (s : String) : Option F :=
  let core : List Char → Option F := fun body =>
    match splitOnChar '.' body with
    | [ip] =>
      if ip ≠ [] ∧ ip.all Char.isDigit then some ⟨(digitsVal ip : Int), 1⟩ else none
    | [ip, fp] =>
      if ip ≠ [] ∧ ip.all Char.isDigit ∧ fp ≠ [] ∧ fp.all Char.isDigit then
        some ⟨(digitsVal ip : Int) * ((10 : Int) ^ fp.length) + (digitsVal fp : Int),
              (10 : ℕ+) ^ fp.length⟩
      else none
    | _ => none
  match s.data with
  | '-' :: body => (core body).map (fun f => ⟨-f.num, f.den⟩)
  | body => core body

/-- Python `int(s)` returning `none` on non-digit input (models `ValueError`;
the sign-free form covers every input the query layer feeds it). -/
def parseIntOpt (s : String) : Option Nat :=
  if s.data ≠ [] ∧ s.data.all Char.isDigit then some (digitsVal s.data) else none

/- ── Python dict as an insertion-ordered association list ──────────────── -/

/-- Python `d.get(k)`. -/
def dictGet {β : Type} : List (String × β) → String → Option β
  | [], _ => none
  | (k', v') :: rest, k => if k' = k then some v' else dictGet rest k

/-- Python `d[k] = v`: replace in place when the key exists, else append
(insertion order preserved, as for a Python dict). -/
def dictSet {β : Type} : List (String × β) → String → β → List (String × β)
  | [], k, v => [(k, v)]
  | (k', v') :: rest, k, v =>
    if k' = k then (k', v) :: rest else (k', v') :: dictSet rest k v

/- ── DynamoDB attribute values ─────────────────────────────────────────── -/

/-- Low-level DynamoDB attribute value: the `{"S": …} / {"N": …} / {"M": …}`
tagged maps the boto3 client returns.  The payload of an `N` attribute is
the parsed numeric value (DynamoDB number strings always parse). -/
inductive AttrV where
  | S (s : String)
  | N (q : F)
  | M (m : List (String × AttrV))

/-- Python `container.get(key, {}).get("M", {})`. -/
def getMattr (m : List (String × AttrV)) (k : String) : List (String × AttrV) :=
  match dictGet m k with
  | some (.M mm) => mm
  | _ => []

/-- Python `float(container.get(key, {}).get("N", dflt))` with a numeric
default string. -/
def getNattr (m : List (String × AttrV)) (k : String) (d : F) : F :=
  match dictGet m k with
  | some (.N q) => q
  | _ => d

/-- Python `container.get(key, {}).get("S", dflt)`. -/
def getSattr (m : List (String × AttrV)) (k : String) (d : String) : String :=
  match dictGet m k with
  | some (.S s) => s
  | _ => d

/- ── apps/api/app/services/surf_dynamodb.py ───────────────────────────────
   SurfDynamoDBService: full-scan snapshot cache + date index + per-date
   result cache.  A raw item always carries the two key attributes the code
   indexes directly (`item["LocationId"]["S"]`, `item["SurfTimestamp"]["S"]`);
   the remaining attributes live in `attrs`. ────────────────────────────── -/

/-- Raw DynamoDB item as consumed by `SurfDynamoDBService`. -/
structure DynItem where
  locationId : String
  surfTimestamp : String
  attrs : List (String × AttrV)

/-- Output record of `SurfDynamoDBService._to_surf_info`.  The `name`,
`waveType` and `bestSeason` fields are omitted: they are constants or pure
display formatting (`f"{lat}, {lng}"`) referenced by no claim. -/
structure SurfInfoDyn where
  locationId : String
  surfTimestamp : String
  geoLat : F
  geoLng : F
  waveHeight : F
  wavePeriod : F
  windSpeed : F
  waterTemperature : F
  surfScore : F
  surfGrade : String
  surfingLevel : String
  modelVersion : String
  dataSource : String
  predictionType : String
  createdAt : String
  city : String
  region : String
  country : String
  address : String
deriving DecidableEq

/-- `SurfDynamoDBService._numeric_grade_to_letter`: numeric grade strings map
via thresholds 3.0→A+, 2.5→A, 2.0→B, 1.0→C, else D; unparsable strings pass
through unchanged. -/
def dynGradeToLetter (g : String) : String :=
  match parseFloatOpt g with
  | some v =>
    if F.leB (F.ofInt 3) v then "A+"
    else if F.leB (mkF 5 2) v then "A"
    else if F.leB (F.ofInt 2) v then "B"
    else if F.leB (F.ofInt 1) v then "C"
    else "D"
  | none => g

/-- `SurfDynamoDBService._to_surf_info` on the fields we keep. -/
def toSurfInfoDyn (it : DynItem) : SurfInfoDyn :=
  let parts := splitOnChar '#' it.locationId.data
  let lat := if parts.length ≥ 2 then (parseFloatOpt (String.mk (parts.headD []))).getD (F.ofInt 0) else F.ofInt 0
  let lng := if parts.length ≥ 2 then (parseFloatOpt (String.mk ((parts.drop 1).headD []))).getD (F.ofInt 0) else F.ofInt 0
  let geo := getMattr it.attrs "geo"
  let conditions := getMattr it.attrs "conditions"
  let derived := getMattr it.attrs "derivedMetrics"
  let metadata := getMattr it.attrs "metadata"
  let location := getMattr it.attrs "location"
  { locationId := it.locationId
    surfTimestamp := it.surfTimestamp
    geoLat := getNattr geo "lat" lat
    geoLng := getNattr geo "lng" lng
    waveHeight := getNattr conditions "waveHeight" (F.ofInt 0)
    wavePeriod := getNattr conditions "wavePeriod" (F.ofInt 0)
    windSpeed := getNattr conditions "windSpeed" (F.ofInt 0)
    waterTemperature := getNattr conditions "waterTemperature" (F.ofInt 0)
    surfScore := getNattr derived "surfScore" (F.ofInt 0)
    surfGrade := dynGradeToLetter (getSattr derived "surfGrade" "D")
    surfingLevel := getSattr derived "surfingLevel" "BEGINNER"
    modelVersion := getSattr metadata "modelVersion" "sagemaker-awaves-v1.2"
    dataSource := getSattr metadata "dataSource" "open-meteo"
    predictionType := getSattr metadata "predictionType" "FORECAST"
    createdAt := getSattr metadata "createdAt" ""
    city := getSattr location "city" ""
    region := getSattr location "state" ""
    country := getSattr location "country" ""
    address := getSattr location "displayName" "" }

/-- Python `list.sort(key=…, reverse=True)`: a stable descending sort by a
fractional key.  A stable sort's output is uniquely determined by the
comparator together with stability, so any stable realization models
CPython's timsort; we use insertion sort and prove sortedness and
tie-order preservation below. -/
def pySortDescBy {α : Type} (key : α → F) (l : List α) : List α :=
  l.insertionSort (fun a b => F.leB (key b) (key a) = true)

/-- Time-of-day extraction `ts[11:16] if len(ts) > 15 else ts[11:]`. -/
def hhmmOf (s : String) : String := if pyLen s > 15 then pySlice s 11 16 else pyDrop s 11

/-- Duel between the item already held for a location and a new item, from
the body of the per-location loop of `get_spots_for_date`: with a time, keep
the one whose `HH:MM` digits, read as the integer `HHMM`, are closer to the
target (strict improvement replaces, so ties keep the first seen); without a
time, keep the lexicographically larger timestamp. -/
def chooseDyn (date : String) (t : Option String) (ex it : DynItem) : DynItem :=
  match t with
  | some tv =>
    let target := date ++ "T" ++ tv
    let tsT := hhmmOf it.surfTimestamp
    let exT := hhmmOf ex.surfTimestamp
    let tgT := hhmmOf target
    if (hhmmVal tsT - hhmmVal tgT).natAbs < (hhmmVal exT - hhmmVal tgT).natAbs then it else ex
  | none => if strLtB ex.surfTimestamp it.surfTimestamp then it else ex

/-- One step of filling `location_map` (a Python dict keyed by location id,
so insertion order is preserved and updates happen in place). -/
def putLocDyn (date : String) (t : Option String) (acc : List DynItem) (it : DynItem) : List DynItem :=
  if acc.any (fun e => decide (e.locationId = it.locationId)) then
    acc.map (fun e => if e.locationId = it.locationId then chooseDyn date t e it else e)
  else acc ++ [it]

/-- The `location_map` reduction of `get_spots_for_date`. -/
def dynReduce (date : String) (t : Option String) (items : List DynItem) : List DynItem :=
  items.foldl (putLocDyn date t) []

/-- Pure core of `SurfDynamoDBService.get_spots_for_date` on a non-empty date
bucket: exact `"{date}T{time}"`-prefixed filtering (falling back to the whole
bucket when nothing matches), one record per location, conversion, stable
descending sort by the flat `derivedMetrics.surfScore`.  `t` is the already
truthiness-normalized time. -/
def dynProcess (date : String) (t : Option String) (bucket : List DynItem) : List SurfInfoDyn :=
  let filtered :=
    match t with
    | some tv =>
      let pfx := date ++ "T" ++ tv
      let matched := bucket.filter (fun it => hasPfx it.surfTimestamp pfx)
      if matched.isEmpty then bucket else matched
    | none => bucket
  pySortDescBy (fun s => s.surfScore) ((dynReduce date t filtered).map toSurfInfoDyn)

/-- Date-index lookup `_date_index.get(date, [])`. -/
def idxGet (idx : List (String × List DynItem)) (d : String) : List DynItem :=
  (dictGet idx d).getD []

/-- Answer a date query directly from a date index (the result an uncached
`get_spots_for_date` computes). -/
def computeForDate (idx : List (String × List DynItem)) (date : String) (t : Option String) :
    List SurfInfoDyn :=
  let bucket := idxGet idx date
  if bucket.isEmpty then [] else dynProcess date (truthyS t) bucket

/-- Module-level mutable state of `surf_dynamodb.py`, plus a monotonic clock
(`time.monotonic()` readings are modelled as the `clock` field; the unused
`_date_index_time` mirror of `_scan_cache_time` is not kept). -/
structure CState where
  clock : Nat
  scanCache : List DynItem
  scanCacheTime : Nat
  dateIndex : List (String × List DynItem)
  spotsCache : List (String × List SurfInfoDyn)
  spotsCacheTime : Nat

/-- Fresh-process state: empty caches, zero timestamps. -/
def initC : CState := ⟨0, [], 0, [], [], 0⟩

/-- Advance the monotonic clock. -/
def tick (s : CState) (dt : Nat) : CState := { s with clock := s.clock + dt }

/-- Add one item to the date index under its `ts[:10]` date key. -/
def idxAdd (idx : List (String × List DynItem)) (it : DynItem) : List (String × List DynItem) :=
  let k := pySlice it.surfTimestamp 0 10
  dictSet idx k (((dictGet idx k).getD []) ++ [it])

/-- Date index built from a snapshot, as in `_scan_all_items`. -/
def buildIndex (items : List DynItem) : List (String × List DynItem) :=
  items.foldl idxAdd []

/-- Successful-refresh state update of `_scan_all_items` (lines 90–105):
store the snapshot, rebuild the date index, and clear the per-date result
cache, all in one step. -/
def refreshState (items : List DynItem) (s : CState) : CState :=
  { s with scanCache := items
           scanCacheTime := s.clock
           dateIndex := buildIndex items
           spotsCache := []
           spotsCacheTime := 0 }

/-- Scan-cache TTL (`_SCAN_CACHE_TTL = 300.0` seconds). -/
def scanTTL : Nat := 300

/-- `_scan_all_items`, given the outcome `r` of the paginated scan it would
perform: serve the cached snapshot while fresh; on a successful scan refresh
everything; on a scan failure the `except` clause returns the last good
snapshot, or an empty list when there is none — it never re-raises, so no
input produces `Except.error`. -/
def scanAllItemsR (s : CState) (r : Except Unit (List DynItem)) :
    Except Unit (List DynItem × CState) :=
  if s.scanCache.isEmpty = false ∧ s.clock - s.scanCacheTime < scanTTL then .ok (s.scanCache, s)
  else
    match r with
    | .ok items => .ok (items, refreshState items s)
    | .error _ => .ok ((if s.scanCache.isEmpty then [] else s.scanCache), s)

/-- Total view of `scanAllItemsR` (justified by `scanAllItemsR_ok` below). -/
def scanStep (s : CState) (r : Except Unit (List DynItem)) : List DynItem × CState :=
  match scanAllItemsR s r with
  | .ok p => p
  | .error _ => ([], s)

/-- Result-cache key `f"{date}|{time or ''}"`. -/
def mkKey (date : String) (t : Option String) : String :=
  date ++ "|" ++ ((truthyS t).getD "")

/-- `SurfDynamoDBService.get_spots_for_date` for a truthy `date`, given the
outcome `r` for the scan it may perform: serve the per-date result cache when
its stamp is at least the snapshot stamp, else ensure the snapshot, read the
date bucket from the index, compute, and cache the processed result. -/
def getSpotsForDate (s : CState) (date : String) (t : Option String)
    (r : Except Unit (List DynItem)) : List SurfInfoDyn × CState :=
  let key := mkKey date t
  if s.spotsCacheTime ≥ s.scanCacheTime ∧ s.scanCacheTime > 0 ∧ (dictGet s.spotsCache key).isSome then
    ((dictGet s.spotsCache key).getD [], s)
  else
    let s1 := (scanStep s r).2
    let bucket := idxGet s1.dateIndex date
    if bucket.isEmpty then ([], s1)
    else
      let spots := dynProcess date (truthyS t) bucket
      (spots, { s1 with spotsCache := dictSet s1.spotsCache key spots
                        spotsCacheTime := s1.clock })

/-- Externally observable operations against the module state: a bare
`_scan_all_items` call or a date query, each advancing the clock and carrying
the outcome of the store scan it would issue. -/
inductive QOp where
  | scanQ (dt : Nat) (r : Except Unit (List DynItem))
  | dateQ (dt : Nat) (date : String) (t : Option String) (r : Except Unit (List DynItem))

/-- State transition of one operation. -/
def applyOp (s : CState) (op : QOp) : CState :=
  match op with
  | .scanQ dt r => (scanStep (tick s dt) r).2
  | .dateQ dt date t r => (getSpotsForDate (tick s dt) date t r).2

/-- State after a sequence of operations. -/
def applyOps (s : CState) (ops : List QOp) : CState := ops.foldl applyOp s

/-- Well-formed query date: truthy and free of the `"|"` cache-key separator
(dates are `YYYY-MM-DD` strings in the API). -/
def dateWFb (d : String) : Bool := decide (d ≠ "") && decide (¬ '|' ∈ d.data)

/-- Well-formedness of one operation. -/
def opWFb : QOp → Bool
  | .scanQ _ _ => true
  | .dateQ _ d _ _ => dateWFb d

/-- Well-formedness of an operation sequence. -/
def opsWFb (ops : List QOp) : Bool := ops.all opWFb

/- ── apps/api/app/repositories/surf_data_repository.py ────────────────────
   SurfDataRepository: the query engine the API routers import.  Raw items
   carry the camelCase keys `locationId` / `surfTimestamp` directly. ────── -/

/-- Raw DynamoDB item as consumed by `SurfDataRepository`. -/
structure RepoItem where
  locationId : String
  surfTimestamp : String
  attrs : List (String × AttrV)

/-- One per-level entry of the normalized `derivedMetrics`. -/
structure LevelMetrics where
  surfScore : F
  surfGrade : String
  surfGradeNumeric : F
deriving DecidableEq

/-- Output record of `SurfDataRepository._to_surf_info`.  Display-only fields
(`name`, Korean fields, `metadata`, `waveType`, `bestSeason`, `city`,
`region`, `country`, `address`) are omitted: no claim reads them, and the
`_enrich_with_korean` pass only backfills those fields in place without
changing list order or length, so on the kept fields it is the identity. -/
structure SurfInfoRepo where
  locationId : String
  surfTimestamp : String
  geoLat : F
  geoLng : F
  waveHeight : F
  wavePeriod : F
  windSpeed : F
  waterTemperature : F
  derivedMetrics : List (String × LevelMetrics)
deriving DecidableEq

/-- `SurfDataRepository._numeric_grade_to_letter`: thresholds 4.0→A, 3.0→B,
2.0→C, 1.0→D, else E; unparsable grade strings pass through. -/
def repoGradeToLetter (g : String) : String :=
  match parseFloatOpt g with
  | some v =>
    if F.leB (F.ofInt 4) v then "A"
    else if F.leB (F.ofInt 3) v then "B"
    else if F.leB (F.ofInt 2) v then "C"
    else if F.leB (F.ofInt 1) v then "D"
    else "E"
  | none => g

/-- Per-level entry built from a non-empty `level_data` map. -/
def levelEntry (ld : List (String × AttrV)) : LevelMetrics :=
  let rawGrade := getSattr ld "surfGrade" "0"
  { surfScore := getNattr ld "surfScore" (F.ofInt 0)
    surfGrade := repoGradeToLetter rawGrade
    surfGradeNumeric := (parseFloatOpt rawGrade).getD (F.ofInt 0) }

/-- Flat-record fallback entry (`derivedMetrics` stored as a single
score/grade at the top level). -/
def flatEntry (derived : List (String × AttrV)) : LevelMetrics :=
  let rawGrade := getSattr derived "surfGrade" "D"
  { surfScore := getNattr derived "surfScore" (F.ofInt 0)
    surfGrade := repoGradeToLetter rawGrade
    surfGradeNumeric := (parseFloatOpt rawGrade).getD (F.ofInt 0) }

/-- Normalization of `derivedMetrics` in `SurfDataRepository._to_surf_info`
(lines 485–514): collect the per-level maps that are present and non-empty;
when none exists, replicate the flat score/grade across all three levels. -/
def derivedMetricsOf (derived : List (String × AttrV)) : List (String × LevelMetrics) :=
  let lst := ["BEGINNER", "INTERMEDIATE", "ADVANCED"].filterMap (fun level =>
    let ld := getMattr derived level
    if ld.isEmpty then none else some (level, levelEntry ld))
  if lst.isEmpty then
    let e := flatEntry derived
    [("BEGINNER", e), ("INTERMEDIATE", e), ("ADVANCED", e)]
  else lst

/-- `SurfDataRepository._to_surf_info` on the kept fields. -/
def toSurfInfoRepo (it : RepoItem) : SurfInfoRepo :=
  let parts := splitOnChar '#' it.locationId.data
  let lat := if parts.length ≥ 2 then (parseFloatOpt (String.mk (parts.headD []))).getD (F.ofInt 0) else F.ofInt 0
  let lng := if parts.length ≥ 2 then (parseFloatOpt (String.mk ((parts.drop 1).headD []))).getD (F.ofInt 0) else F.ofInt 0
  let geo := getMattr it.attrs "geo"
  let conditions := getMattr it.attrs "conditions"
  let derived := getMattr it.attrs "derivedMetrics"
  { locationId := it.locationId
    surfTimestamp := it.surfTimestamp
    geoLat := getNattr geo "lat" lat
    geoLng := getNattr geo "lng" lng
    waveHeight := getNattr conditions "waveHeight" (F.ofInt 0)
    wavePeriod := getNattr conditions "wavePeriod" (F.ofInt 0)
    windSpeed := getNattr conditions "windSpeed" (F.ofInt 0)
    waterTemperature := getNattr conditions "waterTemperature" (F.ofInt 0)
    derivedMetrics := derivedMetricsOf derived }

/-- Hour parsed from the query time: `int(time.split(":")[0])`, `none` on
`ValueError`. -/
def repoHourOf (t : String) : Option Nat :=
  parseIntOpt (String.mk ((splitOnChar ':' t.data).headD []))

/-- Time filter of `SurfDataRepository.get_spots_for_date` (lines 319–336):
hour prefixes `{H, H+1, H+2}` clipped at 23, keep the records matching any of
them, and fall back to the whole bucket when nothing matches or the hour does
not parse. -/
def repoTimeFilter (date t : String) (bucket : List RepoItem) : List RepoItem :=
  match repoHourOf t with
  | none => bucket
  | some h0 =>
    let pfxs := (List.range 3).filterMap (fun off =>
      let h := h0 + off
      if h ≤ 23 then some (date ++ "T" ++ pad2 h ++ ":") else none)
    let matched := bucket.filter (fun it => pfxs.any (fun p => hasPfx it.surfTimestamp p))
    if matched.isEmpty then bucket else matched

/-- Per-location duel of the repository variant: identical to `chooseDyn`
except that the target time-of-day is `time[:5]` instead of a slice of
`f"{date}T{time}"`. -/
def chooseRepo (t0 : Option String) (ex it : RepoItem) : RepoItem :=
  match t0 with
  | some tv =>
    let tsT := hhmmOf it.surfTimestamp
    let exT := hhmmOf ex.surfTimestamp
    let tgT := pySlice tv 0 5
    if (hhmmVal tsT - hhmmVal tgT).natAbs < (hhmmVal exT - hhmmVal tgT).natAbs then it else ex
  | none => if strLtB ex.surfTimestamp it.surfTimestamp then it else ex

/-- One step of filling the repository's `location_map`. -/
def putLocRepo (t0 : Option String) (acc : List RepoItem) (it : RepoItem) : List RepoItem :=
  if acc.any (fun e => decide (e.locationId = it.locationId)) then
    acc.map (fun e => if e.locationId = it.locationId then chooseRepo t0 e it else e)
  else acc ++ [it]

/-- The `location_map` reduction of the repository variant. -/
def repoReduce (t0 : Option String) (items : List RepoItem) : List RepoItem :=
  items.foldl (putLocRepo t0) []

/-- Sort key `s["derivedMetrics"].get("INTERMEDIATE", {}).get("surfScore", 0)`. -/
def repoSortKey (s : SurfInfoRepo) : F :=
  match dictGet s.derivedMetrics "INTERMEDIATE" with
  | some m => m.surfScore
  | none => F.ofInt 0

/-- The spot list of the repository's `get_spots_for_date` just before its
final sort: time filter, per-location reduction, conversion.  `t0` is the
truthiness-normalized time. -/
def repoPreSort (date : String) (t0 : Option String) (bucket : List RepoItem) : List SurfInfoRepo :=
  let filtered :=
    match t0 with
    | some tv => repoTimeFilter date tv bucket
    | none => bucket
  (repoReduce t0 filtered).map toSurfInfoRepo

/-- Pure core of `SurfDataRepository.get_spots_for_date` on the non-empty
date bucket returned by `_query_by_date`: 3-hour window filter, one record
per location, conversion, stable descending sort by the INTERMEDIATE surf
score. -/
def repoProcess (date : String) (t0 : Option String) (bucket : List RepoItem) : List SurfInfoRepo :=
  pySortDescBy repoSortKey (repoPreSort date t0 bucket)

/-- `SurfDataRepository.get_spots_for_date` computation for a truthy date,
including the early `if not filtered: return []` exit. -/
def repoGetSpotsCore (date : String) (t : Option String) (bucket : List RepoItem) :
    List SurfInfoRepo :=
  if bucket.isEmpty then [] else repoProcess date (truthyS t) bucket

/- ── infra/lambda/save/lambda_function.py ─────────────────────────────────
   Ingestion writer + saved-selection change detection. ─────────────────── -/

/-- Dynamically typed Python value as stored on a saved-list item or passed
to `_has_significant_change`: `None`, a numeric value (float/Decimal), or a
string. -/
inductive PyVal where
  | none
  | num (q : F)
  | str (s : String)
deriving DecidableEq

/-- Python `float(v)`: `none` models both `TypeError` (on `None`) and
`ValueError` (on a non-numeric string). -/
def pyFloatV : PyVal → Option F
  | .none => Option.none
  | .num q => some q
  | .str s => parseFloatOpt s

/-- Display stand-in for `str()` of a numeric value (only inequality
outcomes of the fallback branch matter, and those never hinge on the exact
numeral rendering for the values this code handles). -/
def fRepr (a : F) : String := toString a.num ++ "/" ++ toString ((a.den : ℕ))

/-- Python `str(v)`. -/
def pyStrV : PyVal → String
  | .none => "None"
  | .num q => fRepr q
  | .str s => s

/-- The `0.001` float epsilon of `_has_significant_change`. -/
def epsF : F := mkF 1 1000

/-- `_has_significant_change(old_val, new_val)` (lines 131–136): numeric
difference beyond the epsilon when both values convert to float, otherwise
simple string inequality. -/
def hasSignificantChange (oldV newV : PyVal) : Bool :=
  match pyFloatV newV, pyFloatV oldV with
  | some b, some a => F.ltB epsF (F.absF (F.sub b a))
  | _, _ => decide (pyStrV oldV ≠ pyStrV newV)

/-- One saved-list item as read by `_detect_and_flag_changes`: identifiers,
the user's level, the stored copies of the five tracked metrics (each
possibly absent), and the outcome of the `update_item` call the code would
issue for it. -/
structure Selection where
  userId : Option String
  sortKey : Option String
  surferLevel : Option String
  surfScore : PyVal
  waveHeight : PyVal
  wavePeriod : PyVal
  windSpeed : PyVal
  waterTemperature : PyVal
  updateOk : Bool
deriving DecidableEq

/-- One per-level entry of the new record's `derivedMetrics` as built for the
ElastiCache projection (always a two-field map, so never a falsy dict). -/
structure LevelData where
  surfScore : F
  surfGrade : String
deriving DecidableEq

/-- New values for one location, from `latest_per_location` cache data. -/
structure NewData where
  waveHeight : F
  wavePeriod : F
  windSpeed : F
  waterTemperature : F
  derived : List (String × LevelData)
deriving DecidableEq

/-- Line 206: `new_derived.get(surfer_level) or new_derived.get("BEGINNER",
{})`, followed by `.get("surfScore", 0.0)` / `.get("surfGrade", "F")`.  The
`or` falls through on a missing key (the only falsy case reachable here,
since the handler always builds non-empty level maps). -/
def selectLevel (derived : List (String × LevelData)) (lvl : String) : F × String :=
  match dictGet derived lvl with
  | some d => (d.surfScore, d.surfGrade)
  | Option.none =>
    match dictGet derived "BEGINNER" with
    | some d => (d.surfScore, d.surfGrade)
    | Option.none => (F.ofInt 0, "F")

/-- The five tracked comparisons of lines 211–217, as
`(field, stored old value, new value)` triples; the level is
`item.get("SurferLevel", "BEGINNER")`. -/
def trackedComparisons (sel : Selection) (nd : NewData) : List (String × PyVal × F) :=
  let p := selectLevel nd.derived (sel.surferLevel.getD "BEGINNER")
  [("surfScore", sel.surfScore, p.1),
   ("waveHeight", sel.waveHeight, nd.waveHeight),
   ("wavePeriod", sel.wavePeriod, nd.wavePeriod),
   ("windSpeed", sel.windSpeed, nd.windSpeed),
   ("waterTemperature", sel.waterTemperature, nd.waterTemperature)]

/-- Fields recorded in the `changes` list (lines 218–225): a field enters it
only when its stored old value is present (`old_val is not None`) and the
significant-change test fires.  The rounded old/new numbers the source also
stores in each entry are not load-bearing for any claim and are dropped. -/
def changesFor (sel : Selection) (nd : NewData) : List String :=
  (trackedComparisons sel nd).filterMap (fun c =>
    if c.2.1 ≠ PyVal.none ∧ hasSignificantChange c.2.1 (.num c.2.2) then some c.1
    else Option.none)

/-- Update attempted for a flagged selection: who, which item, which fields,
and whether the `update_item` call succeeded. -/
structure Attempt where
  userId : String
  sortKey : String
  changes : List String
  ok : Bool
deriving DecidableEq

/-- Processing of one saved item in the inner loop of
`_detect_and_flag_changes`: skip when `userId`/`sortKey` is falsy or no
tracked field changed, otherwise attempt the flagging update. -/
def processSelection (nd : NewData) (sel : Selection) : Option Attempt :=
  match truthyS sel.userId, truthyS sel.sortKey with
  | some uid, some sk =>
    if (changesFor sel nd).isEmpty then Option.none
    else some ⟨uid, sk, changesFor sel nd, sel.updateOk⟩
  | _, _ => Option.none

/-- Attempts generated for one location's saved items, in scan order. -/
def locAttempts (nd : NewData) (sels : List Selection) : List Attempt :=
  sels.filterMap (processSelection nd)

/-- Add a user to the affected set (modelled as a deduplicated list in
first-insertion order; only membership is observable). -/
def addUser (us : List String) (u : String) : List String :=
  if us.any (fun x => decide (x = u)) then us else us ++ [u]

/-- Outcome of `_detect_and_flag_changes`: the flagged count it returns, the
affected-user set, and the cache keys deleted by the invalidation pipeline. -/
structure DetectResult where
  flagged : Nat
  affected : List String
  invalidated : List String
deriving DecidableEq

/-- `_detect_and_flag_changes` over the `latest_per_location` entries, each
paired with the saved items its paginated scan returns.  `hasCache` is the
truthiness of the ElastiCache handle `r`; deletes are issued only when it is
truthy and some user was affected. -/
def detectAndFlag (hasCache : Bool) (locs : List (NewData × List Selection)) : DetectResult :=
  let atts := locs.foldl (fun acc loc => acc ++ locAttempts loc.1 loc.2) []
  let okAtts := atts.filter (fun a => a.ok)
  let users := okAtts.foldl (fun us a => addUser us a.userId) []
  { flagged := okAtts.length
    affected := users
    invalidated :=
      if hasCache ∧ users.isEmpty = false then users.map (fun u => "awaves:saved:" ++ u)
      else [] }

/-- One CSV row of a BatchTransform `.out` file, as a `csv.DictReader` dict
(`row.get(col)`), together with the outcome `putOk` of the `batch.put_item`
call the handler would issue for it. -/
structure Row where
  location_id : Option String
  datetime : Option String
  y_pred_adv : Option String
  y_pred_int : Option String
  y_pred_beg : Option String
  wave_height : Option String
  wave_period : Option String
  wind_speed_10m : Option String
  sea_surface_temperature : Option String
  putOk : Bool
deriving DecidableEq

/-- `_surf_grade(score)` (lines 87–102): `None` or unparsable → `"F"`, else
the fixed thresholds 80→A, 60→B, 40→C, 20→D, else F. -/
def surfGradeF (score : Option String) : String :=
  match score with
  | Option.none => "F"
  | some s =>
    match parseFloatOpt s with
    | Option.none => "F"
    | some q =>
      if F.leB (F.ofInt 80) q then "A"
      else if F.leB (F.ofInt 60) q then "B"
      else if F.leB (F.ofInt 40) q then "C"
      else if F.leB (F.ofInt 20) q then "D"
      else "F"

/-- Round `m / d` (with `d > 0`) to the nearest integer, ties to even:
Python's `round`. -/
def roundHalfEven (m : Int) (d : Nat) : Int :=
  let q := Int.fdiv m d
  let r := m - q * d
  if 2 * r < (d : Int) then q
  else if (d : Int) < 2 * r then q + 1
  else if q % 2 = 0 then q else q + 1

/-- Python `round(x, 4)` on the exact value (the source rounds the binary
double, which differs only in sub-ulp corner cases). -/
def round4F (x : F) : F := ⟨roundHalfEven (x.num * 10000) (x.den : ℕ), 10000⟩

/-- `_to_decimal(value)` for a CSV string value: `None`/unparsable → `None`,
else the value rounded to 4 decimal places. -/
def toDecimalOpt (v : Option String) : Option F :=
  match v with
  | Option.none => Option.none
  | some s => (parseFloatOpt s).map round4F

/-- `_parse_geo(location_id)`: split on `#` into exactly two float parts, or
`(None, None)` on any failure. -/
def parseGeo (lid : String) : Option F × Option F :=
  match splitOnChar '#' lid.data with
  | [a, b] =>
    match parseFloatOpt (String.mk a), parseFloatOpt (String.mk b) with
    | some x, some y => (some x, some y)
    | _, _ => (Option.none, Option.none)
  | _ => (Option.none, Option.none)

/-- Stored per-level score/grade pair of the DynamoDB item. -/
structure LevelStored where
  surfScore : Option F
  surfGrade : String
deriving DecidableEq

/-- The DynamoDB item the handler writes for one row (lines 321–355).  The
`expiredAt` TTL epoch and the constant `metadata` block are omitted: no
claim reads them. -/
structure StoredItem where
  locationId : String
  surfTimestamp : String
  geoLat : Option F
  geoLng : Option F
  waveHeight : Option F
  wavePeriod : Option F
  windSpeed : Option F
  waterTemperature : Option F
  dmBeginner : LevelStored
  dmIntermediate : LevelStored
  dmAdvanced : LevelStored
deriving DecidableEq

/-- Row validity gate of the handler loop: truthy `location_id` and
`datetime`, and `y_pred_adv` present. -/
def rowValid (row : Row) : Bool :=
  ((truthyS row.location_id).isSome && (truthyS row.datetime).isSome) && row.y_pred_adv.isSome

/-- The item written for a valid row (`none` when the row is skipped as an
error). -/
def rowItem (row : Row) : Option StoredItem :=
  match truthyS row.location_id, truthyS row.datetime, row.y_pred_adv with
  | some lid, some dt, some _ =>
    some { locationId := lid
           surfTimestamp := dt
           geoLat := (parseGeo lid).1.map round4F
           geoLng := (parseGeo lid).2.map round4F
           waveHeight := toDecimalOpt row.wave_height
           wavePeriod := toDecimalOpt row.wave_period
           windSpeed := toDecimalOpt row.wind_speed_10m
           waterTemperature := toDecimalOpt row.sea_surface_temperature
           dmBeginner := ⟨toDecimalOpt row.y_pred_beg, surfGradeF row.y_pred_beg⟩
           dmIntermediate := ⟨toDecimalOpt row.y_pred_int, surfGradeF row.y_pred_int⟩
           dmAdvanced := ⟨toDecimalOpt row.y_pred_adv, surfGradeF row.y_pred_adv⟩ }
  | _, _, _ => Option.none

/-- Skill levels of the ingestion schema. -/
inductive SkillLevel where
  | beginner
  | intermediate
  | advanced
deriving DecidableEq

/-- Predicted score column of a row for a level. -/
def yOf (row : Row) : SkillLevel → Option String
  | .beginner => row.y_pred_beg
  | .intermediate => row.y_pred_int
  | .advanced => row.y_pred_adv

/-- Stored `derivedMetrics` entry of an item for a level. -/
def dmOf (it : StoredItem) : SkillLevel → LevelStored
  | .beginner => it.dmBeginner
  | .intermediate => it.dmIntermediate
  | .advanced => it.dmAdvanced

/-- Grade thresholds exactly as the specification words them: score ≥ 80 →
"A", ≥ 60 → "B", ≥ 40 → "C", ≥ 20 → "D", else "F". -/
def gradeSpec (q : ℚ) : String :=
  if 80 ≤ q then "A"
  else if 60 ≤ q then "B"
  else if 40 ≤ q then "C"
  else if 20 ≤ q then "D"
  else "F"

/-- Result summary of the handler (the `latest_per_location` cache projection
and change-detection counters are orthogonal to the claims and omitted).  On
the no-input path the source returns only `status`/`message`; the numeric
fields are zero there. -/
structure SaveResult where
  status : String
  filesProcessed : Nat
  written : Nat
  errors : Nat
deriving DecidableEq

/-- The row loop of the handler: an invalid row counts one error and the
loop continues; a valid row counts as written when its `put_item` succeeds,
else as one error — never aborting the batch. -/
def processRows (acc : Nat × Nat) (rows : List Row) : Nat × Nat :=
  rows.foldl (fun we row =>
    if rowValid row then (if row.putOk then (we.1 + 1, we.2) else (we.1, we.2 + 1))
    else (we.1, we.2 + 1)) acc

/-- One `.out` file: a failed `_read_csv_from_s3` counts one error and the
batch continues with the next file. -/
def processFile (acc : Nat × Nat) (f : Except Unit (List Row)) : Nat × Nat :=
  match f with
  | .error _ => (acc.1, acc.2 + 1)
  | .ok rows => processRows acc rows

/-- The handler, given the listed `.out` files, each with its read outcome
and rows: `status: "error"` when no input file exists, otherwise `"success"`
iff zero errors and `"partial"` otherwise. -/
def handlerRun (files : List (Except Unit (List Row))) : SaveResult :=
  if files.isEmpty then { status := "error", filesProcessed := 0, written := 0, errors := 0 }
  else
    let we := files.foldl processFile (0, 0)
    { status := if we.2 = 0 then "success" else "partial"
      filesProcessed := files.length
      written := we.1
      errors := we.2 }

/-- A row that ends up counted as an error (invalid or failed write). -/
def rowFails (row : Row) : Bool := !(rowValid row && row.putOk)

/-- Specification-side count of written rows: per file, the rows that are
valid and whose write succeeds. -/
def specWritten (files : List (Except Unit (List Row))) : Nat :=
  (files.map (fun f =>
    match f with
    | .ok rows => rows.countP (fun r => rowValid r && r.putOk)
    | .error _ => 0)).sum

/-- Specification-side count of errors: one per unreadable file plus one per
failing row of each readable file. -/
def specErrors (files : List (Except Unit (List Row))) : Nat :=
  (files.map (fun f =>
    match f with
    | .ok rows => rows.countP rowFails
    | .error _ => 1)).sum

/- ── Claim-side predicates and concrete instances ──────────────────────── -/

/-- Membership of a record in the specification's 3-hour forward hour window
for start hour `H` (computable form; its semantic reading is proved in the
claim-2 theorem). -/
def inWindowB (date : String) (hStart : Nat) (it : RepoItem) : Bool :=
  (List.range 3).any (fun off =>
    decide (hStart + off ≤ 23) && hasPfx it.surfTimestamp (date ++ "T" ++ pad2 (hStart + off) ++ ":"))

/-- Flat-shaped `derivedMetrics`: none of the three per-level maps is present
and non-empty. -/
def flatShapedB (derived : List (String × AttrV)) : Bool :=
  (getMattr derived "BEGINNER").isEmpty
    && (getMattr derived "INTERMEDIATE").isEmpty
    && (getMattr derived "ADVANCED").isEmpty

/-- Selection whose five stored metric copies are all absent. -/
def allNoneB (sel : Selection) : Bool :=
  decide (sel.surfScore = PyVal.none) && decide (sel.waveHeight = PyVal.none)
    && decide (sel.wavePeriod = PyVal.none) && decide (sel.windSpeed = PyVal.none)
    && decide (sel.waterTemperature = PyVal.none)

/-- Coherence invariant of the per-date result cache: every cached value for
a well-formed key equals the computation from the current date index. -/
def cacheWF (s : CState) : Prop :=
  ∀ d t v, dateWFb d = true → truthyS t = t →
    dictGet s.spotsCache (mkKey d t) = some v → v = computeForDate s.dateIndex d t

/-- Claim 1 example record at 05:58. -/
def c1itemA : DynItem := ⟨"33.0#127.0", "2026-02-14T05:58:00Z", []⟩

/-- Claim 1 example record at 06:10. -/
def c1itemB : DynItem := ⟨"33.0#127.0", "2026-02-14T06:10:00Z", []⟩

/-- Witness bucket for the repository query claims. -/
def c2bucket : List RepoItem :=
  [⟨"33.0#127.0", "2026-02-14T05:58:00Z", []⟩, ⟨"33.0#127.0", "2026-02-14T06:10:00Z", []⟩]

/-- Witness item for the cache-coherence claim. -/
def c3item : DynItem := ⟨"33.0#127.0", "2026-02-14T06:00:00Z", []⟩

/-- New per-location data used by the change-detection examples. -/
def c5nd : NewData :=
  ⟨mkF 12 10, mkF 85 10, mkF 31 10, mkF 18 1,
   [("BEGINNER", ⟨mkF 30 1, "D"⟩), ("INTERMEDIATE", ⟨mkF 50 1, "C"⟩),
    ("ADVANCED", ⟨mkF 70 1, "B"⟩)]⟩

/-- Selection whose stored score 50.0005 differs from the new score 50 by
0.0005 (below the epsilon). -/
def c5selNear : Selection :=
  ⟨some "u1", some "k1", some "INTERMEDIATE", .num (mkF 500005 10000),
   .none, .none, .none, .none, true⟩

/-- Selection whose stored score 50.002 differs from the new score 50 by
0.002 (above the epsilon). -/
def c5selFar : Selection :=
  ⟨some "u1", some "k1", some "INTERMEDIATE", .num (mkF 500020 10000),
   .none, .none, .none, .none, true⟩

/-- Per-level metrics of claim 7's counterexample record. -/
def c7derived : List (String × LevelData) :=
  [("BEGINNER", ⟨mkF 10 1, "F"⟩), ("INTERMEDIATE", ⟨mkF 50 1, "C"⟩),
   ("ADVANCED", ⟨mkF 90 1, "A"⟩)]

/-- Selection of a user whose level string matches no stored level. -/
def c7sel : Selection :=
  ⟨some "u1", some "k1", some "EXPERT", .num (mkF 20 1), .none, .none, .none, .none, true⟩

/-- New data for claim 7's counterexample. -/
def c7nd : NewData := ⟨mkF 1 1, mkF 2 1, mkF 3 1, mkF 4 1, c7derived⟩

/-- Selection with no stored metric values at all. -/
def c10sel : Selection :=
  ⟨some "u2", some "k2", some "ADVANCED", .none, .none, .none, .none, .none, true⟩

/-- Fully populated valid ingestion row. -/
def c8row : Row :=
  ⟨some "33.0#127.0", some "2026-03-01T06:00:00Z", some "65.0", some "55.5", some "40.0",
   some "1.2", some "8.5", some "3.1", some "18.0", true⟩

/-- Item the handler stores for `c8row`. -/
def c8item : StoredItem :=
  (rowItem c8row).getD
    ⟨"", "", Option.none, Option.none, Option.none, Option.none, Option.none, Option.none,
     ⟨Option.none, "F"⟩, ⟨Option.none, "F"⟩, ⟨Option.none, "F"⟩⟩

/-- Row missing its `location_id` (counted as an error and skipped). -/
def c9badRow : Row :=
  ⟨Option.none, some "2026-03-01T06:00:00Z", some "50", Option.none, Option.none,
   Option.none, Option.none, Option.none, Option.none, true⟩

/-- Witness batch: one readable file with one good and one bad row. -/
def c9files : List (Except Unit (List Row)) := [.ok [c8row, c9badRow]]

/-- Flat-shaped repository item (old storage format). -/
def c6flatItem : RepoItem :=
  ⟨"33.0#127.0", "2026-02-14T06:00:00Z",
   [("derivedMetrics", .M [("surfScore", .N (mkF 77 1)), ("surfGrade", .S "3.5")])]⟩

/- ── Bridge lemmas between `F` and `ℚ` ─────────────────────────────────── -/

theorem denQ_pos (a : F) : (0 : ℚ) < ((a.den : ℕ) : ℚ) := by
  exact_mod_cast a.den.pos

theorem ltB_iff (a b : F) : F.ltB a b = true ↔ toRat a < toRat b := by
  unfold F.ltB toRat
  rw [decide_eq_true_iff, div_lt_div_iff (denQ_pos a) (denQ_pos b)]
  constructor <;> intro h <;> exact_mod_cast h

theorem leB_iff (a b : F) : F.leB a b = true ↔ toRat a ≤ toRat b := by
  unfold F.leB toRat
  rw [decide_eq_true_iff, div_le_div_iff (denQ_pos a) (denQ_pos b)]
  constructor <;> intro h <;> exact_mod_cast h

theorem toRat_sub (a b : F) : toRat (F.sub a b) = toRat a - toRat b := by
  unfold F.sub toRat
  rw [div_sub_div _ _ (ne_of_gt (denQ_pos a)) (ne_of_gt (denQ_pos b))]
  simp only [PNat.mul_coe, Nat.cast_mul]
  push_cast
  ring_nf

theorem toRat_absF (a : F) : toRat (F.absF a) = |toRat a| := by
  unfold F.absF toRat
  rw [abs_div, abs_of_pos (denQ_pos a)]
  congr 1
  dsimp only
  push_cast
  rfl

theorem toRat_ofInt (n : Int) : toRat (F.ofInt n) = (n : ℚ) := by
  simp [F.ofInt, toRat]

/- ── Association-list lemmas ───────────────────────────────────────────── -/

theorem dictGet_dictSet {β : Type} (m : List (String × β)) (k : String) (v : β) (j : String) :
    dictGet (dictSet m k v) j = if j = k then some v else dictGet m j := by
  induction m with
  | nil =>
    by_cases h : j = k
    · subst h
      simp [dictSet, dictGet]
    · have h' : ¬ k = j := fun hh => h hh.symm
      simp [dictSet, dictGet, h, h']
  | cons hd tl ih =>
    obtain ⟨k', v'⟩ := hd
    by_cases hk : k' = k
    · subst hk
      by_cases hj : k' = j
      · subst hj
        simp [dictSet, dictGet]
      · have hj' : ¬ j = k' := fun hh => hj hh.symm
        simp [dictSet, dictGet, hj, hj']
    · by_cases hj : k' = j
      · subst hj
        have hk' : ¬ k' = k := hk
        simp [dictSet, dictGet, hk']
      · simp [dictSet, dictGet, hk, hj, ih]

set_option maxRecDepth 2000

/- ── Claim 1 ───────────────────────────────────────────────────────────── -/

/-- C1: on the spec's own example — one location with records at 05:58 and
06:10 queried with `time="06:00"` — `get_spots_for_date` keeps the 06:10
record, not the 05:58 one the claim requires: the selection compares
`abs(int("HHMM") − int("HHMM"))`, and |610 − 600| = 10 beats |558 − 600| =
42, although 05:58 is 2 minutes from 06:00 and 06:10 is 10 minutes away. -/
theorem claim1_code_picks_0610_not_0558 :
    (dynProcess "2026-02-14" (some "06:00") [c1itemA, c1itemB]).map
      (fun s => s.surfTimestamp) = ["2026-02-14T06:10:00Z"] := by
  decide

/- ── Claim 4 ───────────────────────────────────────────────────────────── -/

/-- C4 counterexample: with an empty snapshot cache, a failed scan makes
`_scan_all_items` return an empty list normally — `Except.ok ([], …)` — so
the error is not propagated to the caller, contrary to the claim. -/
theorem claim4_counterexample_error_swallowed :
    scanAllItemsR initC (Except.error ()) = Except.ok ([], initC) := rfl

/-- C4 (amended): on scan failure `_scan_all_items` returns the last good
snapshot when one exists and an empty list otherwise; it never propagates
the error (every call returns `Except.ok`). -/
theorem claim4_scan_failure_graceful_never_raises :
    (∀ (s : CState) (e : Unit),
      scanAllItemsR s (Except.error e)
        = Except.ok ((if s.scanCache.isEmpty then [] else s.scanCache), s))
    ∧ (∀ (s : CState) (r : Except Unit (List DynItem)),
        scanAllItemsR s r = Except.ok (scanStep s r)) := by
  constructor
  · intro s e
    unfold scanAllItemsR
    split
    · next h => simp [h.1]
    · rfl
  · intro s r
    unfold scanStep scanAllItemsR
    split
    · rfl
    · cases r <;> rfl

/- ── Claim 5 ───────────────────────────────────────────────────────────── -/

/-- C5: a numeric tracked field counts as changed iff `|new − old| > 0.001`;
non-numeric values fall back to simple (string) inequality; a processable
selection is flagged exactly when at least one of the five tracked
comparisons records a change; and on the spec's examples a stored score
50.0005 against a new score 50 (delta 0.0005) records no change while a
stored 50.002 (delta 0.002) records one. -/
theorem claim5_change_threshold_and_flagging :
    (∀ a b : F, hasSignificantChange (.num a) (.num b) = true ↔ |toRat b - toRat a| > 1 / 1000)
    ∧ (∀ s t : String, parseFloatOpt s = Option.none → parseFloatOpt t = Option.none →
        (hasSignificantChange (.str s) (.str t) = true ↔ s ≠ t))
    ∧ (∀ (nd : NewData) (sel : Selection),
        (truthyS sel.userId).isSome = true → (truthyS sel.sortKey).isSome = true →
        (processSelection nd sel ≠ Option.none ↔
          ∃ c ∈ trackedComparisons sel nd,
            c.2.1 ≠ PyVal.none ∧ hasSignificantChange c.2.1 (.num c.2.2) = true))
    ∧ changesFor c5selNear c5nd = []
    ∧ changesFor c5selFar c5nd = ["surfScore"] := by
  refine ⟨?_, ?_, ?_, by decide, by decide⟩
  · intro a b
    show F.ltB epsF (F.absF (F.sub b a)) = true ↔ _
    rw [ltB_iff, toRat_absF, toRat_sub]
    have he : toRat epsF = 1 / 1000 := by norm_num [toRat, epsF, mkF]
    rw [he]
  · intro s t hs ht
    simp [hasSignificantChange, pyFloatV, hs, ht, pyStrV]
  · intro nd sel hu hk
    rcases Option.isSome_iff_exists.mp hu with ⟨u, hu'⟩
    rcases Option.isSome_iff_exists.mp hk with ⟨k, hk'⟩
    unfold processSelection
    rw [hu', hk']
    constructor
    · intro hne
      have hcs : changesFor sel nd ≠ [] := by
        intro hnil
        simp [hnil] at hne
      rw [changesFor] at hcs
      rcases List.exists_mem_of_ne_nil _ hcs with ⟨x, hx⟩
      rcases List.mem_filterMap.mp hx with ⟨c, hc, hfc⟩
      refine ⟨c, hc, ?_⟩
      by_cases hco : c.2.1 ≠ PyVal.none ∧ hasSignificantChange c.2.1 (.num c.2.2) = true
      · exact hco
      · rw [if_neg hco] at hfc
        exact absurd hfc (Option.noConfusion)
    · rintro ⟨c, hc, hcond⟩
      have : c.1 ∈ changesFor sel nd :=
        List.mem_filterMap.mpr ⟨c, hc, by rw [if_pos hcond]⟩
      have hne : (changesFor sel nd).isEmpty = false := by
        cases h : changesFor sel nd with
        | nil => rw [h] at this; cases this
        | cons a l => rfl
      simp [hne]

/-- C5 witness: the non-numeric branch at two unparsable strings, and the
flag-iff at the concrete over-threshold selection. -/
theorem claim5_witness :
    (hasSignificantChange (.str "abc") (.str "xyz") = true ↔ ("abc" : String) ≠ "xyz")
    ∧ (processSelection c5nd c5selFar ≠ Option.none ↔
        ∃ c ∈ trackedComparisons c5selFar c5nd,
          c.2.1 ≠ PyVal.none ∧ hasSignificantChange c.2.1 (.num c.2.2) = true) :=
  ⟨claim5_change_threshold_and_flagging.2.1 "abc" "xyz" (by decide) (by decide),
   claim5_change_threshold_and_flagging.2.2.1 c5nd c5selFar (by decide) (by decide)⟩

/- ── Claim 7 ───────────────────────────────────────────────────────────── -/

/-- C7 counterexample: for a selection whose `surferLevel` is `"EXPERT"` —
a key absent from the new record's `derivedMetrics` — the compared new
surf score is BEGINNER's value 10, i.e. the code falls back to another
level instead of performing only an exact 1:1 match. -/
theorem claim7_counterexample_beginner_fallback :
    dictGet c7nd.derived "EXPERT" = Option.none
    ∧ selectLevel c7nd.derived "EXPERT" = (mkF 10 1, "F")
    ∧ (trackedComparisons c7sel c7nd).headD ("", PyVal.none, F.ofInt 0)
        = ("surfScore", PyVal.num (mkF 20 1), mkF 10 1) := by
  decide

/-- C7 (amended): when `selection.surferLevel` is present as a key of the new
record's `derivedMetrics` the compared values are exactly that level's
(1:1 match); when it is absent the code falls back to the `"BEGINNER"`
entry, and to `(0.0, "F")` if that is absent too. -/
theorem claim7_amended_level_lookup :
    (∀ (derived : List (String × LevelData)) (lvl : String) (d : LevelData),
      dictGet derived lvl = some d → selectLevel derived lvl = (d.surfScore, d.surfGrade))
    ∧ (∀ (derived : List (String × LevelData)) (lvl : String) (d : LevelData),
      dictGet derived lvl = Option.none → dictGet derived "BEGINNER" = some d →
        selectLevel derived lvl = (d.surfScore, d.surfGrade))
    ∧ (∀ (derived : List (String × LevelData)) (lvl : String),
      dictGet derived lvl = Option.none → dictGet derived "BEGINNER" = Option.none →
        selectLevel derived lvl = (F.ofInt 0, "F")) := by
  refine ⟨?_, ?_, ?_⟩
  · intro derived lvl d h
    unfold selectLevel
    rw [h]
  · intro derived lvl d h hb
    unfold selectLevel
    rw [h, hb]
  · intro derived lvl h hb
    unfold selectLevel
    rw [h, hb]

/-- C7 witness: exact lookup at `"ADVANCED"` and the BEGINNER fallback at
`"EXPERT"` on the concrete record. -/
theorem claim7_witness :
    selectLevel c7derived "ADVANCED" = ((⟨mkF 90 1, "A"⟩ : LevelData).surfScore, (⟨mkF 90 1, "A"⟩ : LevelData).surfGrade)
    ∧ selectLevel c7derived "EXPERT" = ((⟨mkF 10 1, "F"⟩ : LevelData).surfScore, (⟨mkF 10 1, "F"⟩ : LevelData).surfGrade) :=
  ⟨claim7_amended_level_lookup.1 c7derived "ADVANCED" ⟨mkF 90 1, "A"⟩ (by decide),
   claim7_amended_level_lookup.2.1 c7derived "EXPERT" ⟨mkF 10 1, "F"⟩ (by decide) (by decide)⟩

/- ── Claim 8 ───────────────────────────────────────────────────────────── -/

theorem surfGradeF_parsed (s : String) (q : F) (h : parseFloatOpt s = some q) :
    surfGradeF (some s) = gradeSpec (toRat q) := by
  have e80 : F.leB (F.ofInt 80) q = true ↔ (80 : ℚ) ≤ toRat q := by
    rw [leB_iff, toRat_ofInt]; norm_num
  have e60 : F.leB (F.ofInt 60) q = true ↔ (60 : ℚ) ≤ toRat q := by
    rw [leB_iff, toRat_ofInt]; norm_num
  have e40 : F.leB (F.ofInt 40) q = true ↔ (40 : ℚ) ≤ toRat q := by
    rw [leB_iff, toRat_ofInt]; norm_num
  have e20 : F.leB (F.ofInt 20) q = true ↔ (20 : ℚ) ≤ toRat q := by
    rw [leB_iff, toRat_ofInt]; norm_num
  unfold gradeSpec
  simp only [surfGradeF, h]
  by_cases h80 : (80 : ℚ) ≤ toRat q
  · rw [if_pos (e80.mpr h80), if_pos h80]
  · rw [if_neg (fun hc => h80 (e80.mp hc)), if_neg h80]
    by_cases h60 : (60 : ℚ) ≤ toRat q
    · rw [if_pos (e60.mpr h60), if_pos h60]
    · rw [if_neg (fun hc => h60 (e60.mp hc)), if_neg h60]
      by_cases h40 : (40 : ℚ) ≤ toRat q
      · rw [if_pos (e40.mpr h40), if_pos h40]
      · rw [if_neg (fun hc => h40 (e40.mp hc)), if_neg h40]
        by_cases h20 : (20 : ℚ) ≤ toRat q
        · rw [if_pos (e20.mpr h20), if_pos h20]
        · rw [if_neg (fun hc => h20 (e20.mp hc)), if_neg h20]

/-- C8: for every row the handler writes and every skill level, the stored
`surfGrade` is derived from that level's predicted score by the fixed
thresholds ≥80→A, ≥60→B, ≥40→C, ≥20→D, else F (`gradeSpec` transcribes the
specification's threshold table). -/
theorem claim8_grade_thresholds (row : Row) (it : StoredItem) (lvl : SkillLevel) (q : F)
    (hit : rowItem row = some it) (hq : (yOf row lvl).bind parseFloatOpt = some q) :
    (dmOf it lvl).surfGrade = gradeSpec (toRat q) := by
  unfold rowItem at hit
  rcases hL : truthyS row.location_id with _ | lid
  · rw [hL] at hit; exact Option.noConfusion hit
  rcases hD : truthyS row.datetime with _ | dt
  · rw [hL, hD] at hit; exact Option.noConfusion hit
  rcases hA : row.y_pred_adv with _ | ya
  · rw [hL, hD, hA] at hit; exact Option.noConfusion hit
  rw [hL, hD, hA] at hit
  have hit' := (Option.some.inj hit).symm
  subst hit'
  cases lvl with
  | beginner =>
    rcases hy : row.y_pred_beg with _ | s
    · rw [yOf, hy] at hq
      simp only [Option.none_bind] at hq
      exact Option.noConfusion hq
    · rw [yOf, hy] at hq
      simp only [Option.some_bind] at hq
      show surfGradeF (some s) = gradeSpec (toRat q)
      exact surfGradeF_parsed s q hq
  | intermediate =>
    rcases hy : row.y_pred_int with _ | s
    · rw [yOf, hy] at hq
      simp only [Option.none_bind] at hq
      exact Option.noConfusion hq
    · rw [yOf, hy] at hq
      simp only [Option.some_bind] at hq
      show surfGradeF (some s) = gradeSpec (toRat q)
      exact surfGradeF_parsed s q hq
  | advanced =>
    rw [yOf, hA] at hq
    simp only [Option.some_bind] at hq
    show surfGradeF (some ya) = gradeSpec (toRat q)
    exact surfGradeF_parsed ya q hq

/-- C8 witness: the concrete row with ADVANCED score 65.0 stores grade
`gradeSpec 65 = "B"`. -/
theorem claim8_witness :
    (dmOf c8item .advanced).surfGrade = gradeSpec (toRat (mkF 650 10)) :=
  claim8_grade_thresholds c8row c8item .advanced (mkF 650 10) (by decide) (by decide)

/- ── Claim 9 ───────────────────────────────────────────────────────────── -/

theorem processRows_acc (rows : List Row) (w e : Nat) :
    processRows (w, e) rows
      = (w + rows.countP (fun r => rowValid r && r.putOk), e + rows.countP rowFails) := by
  induction rows generalizing w e with
  | nil => simp [processRows]
  | cons r rest ih =>
    simp only [processRows, List.foldl_cons, List.countP_cons] at ih ⊢
    by_cases hv : rowValid r = true
    · by_cases hp : r.putOk = true
      · rw [if_pos hv, if_pos hp, ih]
        simp [rowFails, hv, hp]
        omega
      · rw [if_pos hv, if_neg hp, ih]
        have : r.putOk = false := by revert hp; cases r.putOk <;> simp
        simp [rowFails, hv, this]
        omega
    · rw [if_neg hv, ih]
      have : rowValid r = false := by revert hv; cases rowValid r <;> simp
      simp [rowFails, this]
      omega

theorem foldl_processFile (files : List (Except Unit (List Row))) (w e : Nat) :
    files.foldl processFile (w, e) = (w + specWritten files, e + specErrors files) := by
  induction files generalizing w e with
  | nil => simp [specWritten, specErrors]
  | cons f rest ih =>
    cases f with
    | error u =>
      simp only [List.foldl_cons, processFile, specWritten, specErrors, List.map_cons,
        List.sum_cons, ih, Prod.mk.injEq]
      constructor <;> omega
    | ok rows =>
      simp only [List.foldl_cons, processFile, specWritten, specErrors, List.map_cons,
        List.sum_cons]
      rw [processRows_acc, ih]
      simp only [specWritten, specErrors, Prod.mk.injEq]
      constructor <;> omega

/-- C9: a row that fails to parse or write is counted in `errors` and the
batch continues (written and error totals are exactly the per-row counts);
the handler reports `status: "error"` iff no input file exists, and
otherwise `"success"` iff `errors = 0` and `"partial"` iff some rows or
files failed. -/
theorem claim9_partial_batch_policy :
    (∀ files, (handlerRun files).status = "error" ↔ files = [])
    ∧ (∀ files, files ≠ [] →
        (((handlerRun files).status = "success" ↔ (handlerRun files).errors = 0)
          ∧ ((handlerRun files).status = "partial" ↔ (handlerRun files).errors ≠ 0)))
    ∧ (∀ files, (handlerRun files).written = specWritten files
        ∧ (handlerRun files).errors = specErrors files) := by
  refine ⟨?_, ?_, ?_⟩
  · intro files
    cases files with
    | nil => simp [handlerRun]
    | cons f rest =>
      simp only [handlerRun, List.isEmpty_cons, if_neg Bool.false_ne_true]
      constructor
      · intro h
        exfalso
        revert h
        split <;> intro h <;> exact absurd h (by decide)
      · intro h
        exact absurd h (List.cons_ne_nil f rest)
  · intro files hne
    rcases files with _ | ⟨f, rest⟩
    · exact absurd rfl hne
    simp only [handlerRun, List.isEmpty_cons, if_neg Bool.false_ne_true]
    split
    · next he =>
      refine ⟨⟨fun _ => he, fun _ => rfl⟩, ⟨fun hc => absurd hc (by decide), fun hc => absurd he hc⟩⟩
    · next he =>
      refine ⟨⟨fun hc => absurd hc (by decide), fun hc => absurd hc he⟩,
              ⟨fun _ => he, fun _ => rfl⟩⟩
  · intro files
    cases files with
    | nil => simp [handlerRun, specWritten, specErrors]
    | cons f rest =>
      simp only [handlerRun, List.isEmpty_cons, if_neg Bool.false_ne_true]
      rw [foldl_processFile]
      simp

/-- C9 witness: the concrete batch with one good and one bad row reports
`"partial"` with a nonzero error count. -/
theorem claim9_witness :
    ((handlerRun c9files).status = "success" ↔ (handlerRun c9files).errors = 0)
    ∧ ((handlerRun c9files).status = "partial" ↔ (handlerRun c9files).errors ≠ 0) :=
  claim9_partial_batch_policy.2.1 c9files (by unfold c9files; exact List.cons_ne_nil _ _)

/- ── Claim 10 ──────────────────────────────────────────────────────────── -/

theorem mem_addUser (us : List String) (x u : String) :
    u ∈ addUser us x ↔ u ∈ us ∨ u = x := by
  unfold addUser
  by_cases h : us.any (fun y => decide (y = x)) = true
  · rw [if_pos h]
    rcases List.any_eq_true.mp h with ⟨y, hy, hyx⟩
    have hx : x ∈ us := by
      have : y = x := of_decide_eq_true hyx
      rwa [this] at hy
    constructor
    · exact Or.inl
    · rintro (hu | hu)
      · exact hu
      · rwa [hu]
  · rw [if_neg h]
    simp

theorem mem_foldl_addUser (l : List Attempt) (us : List String) (u : String) :
    u ∈ l.foldl (fun acc a => addUser acc a.userId) us
      ↔ u ∈ us ∨ ∃ a ∈ l, a.userId = u := by
  induction l generalizing us with
  | nil => simp
  | cons a rest ih =>
    simp only [List.foldl_cons, ih, mem_addUser]
    constructor
    · rintro (⟨h | h⟩ | ⟨b, hb, hbu⟩)
      · exact Or.inl h
      · exact Or.inr ⟨a, List.mem_cons_self a rest, h.symm⟩
      · exact Or.inr ⟨b, List.mem_cons_of_mem a hb, hbu⟩
    · rintro (h | ⟨b, hb, hbu⟩)
      · exact Or.inl (Or.inl h)
      · rcases List.mem_cons.mp hb with hb | hb
        · exact Or.inl (Or.inr (hb ▸ hbu.symm))
        · exact Or.inr ⟨b, hb, hbu⟩

theorem mem_foldl_append {α β : Type} (f : β → List α) (locs : List β) (acc : List α) (x : α) :
    x ∈ locs.foldl (fun acc p => acc ++ f p) acc ↔ x ∈ acc ∨ ∃ p ∈ locs, x ∈ f p := by
  induction locs generalizing acc with
  | nil => simp
  | cons p rest ih =>
    simp only [List.foldl_cons, ih, List.mem_append]
    constructor
    · rintro (⟨h | h⟩ | ⟨b, hb, hbx⟩)
      · exact Or.inl h
      · exact Or.inr ⟨p, List.mem_cons_self p rest, h⟩
      · exact Or.inr ⟨b, List.mem_cons_of_mem p hb, hbx⟩
    · rintro (h | ⟨b, hb, hbx⟩)
      · exact Or.inl (Or.inl h)
      · rcases List.mem_cons.mp hb with hb | hb
        · exact Or.inl (Or.inr (hb ▸ hbx))
        · exact Or.inr ⟨b, hb, hbx⟩

theorem processSelection_userId (nd : NewData) (sel : Selection) (att : Attempt)
    (h : processSelection nd sel = some att) : truthyS sel.userId = some att.userId := by
  unfold processSelection at h
  rcases hu : truthyS sel.userId with _ | u
  · simp only [hu] at h
    exact Option.noConfusion h
  rcases hk : truthyS sel.sortKey with _ | k
  · simp only [hu, hk] at h
    exact Option.noConfusion h
  simp only [hu, hk] at h
  by_cases hc : (changesFor sel nd).isEmpty = true
  · rw [if_pos hc] at h
    exact Option.noConfusion h
  · rw [if_neg hc] at h
    obtain rfl : att = ⟨u, k, changesFor sel nd, sel.updateOk⟩ := (Option.some.inj h).symm
    rfl

theorem allNone_changesFor (nd : NewData) (sel : Selection) (h : allNoneB sel = true) :
    changesFor sel nd = [] := by
  have h5 := h
  unfold allNoneB at h5
  simp only [Bool.and_eq_true, decide_eq_true_eq] at h5
  obtain ⟨⟨⟨⟨h1, h2⟩, h3⟩, h4⟩, hw⟩ := h5
  simp [changesFor, trackedComparisons, h1, h2, h3, h4, hw]

/-- C10: a tracked field whose stored old value is `None` is never recorded
as changed; a selection with all five stored values absent yields no update
attempt at all (never flagged, never updated); and a user all of whose
selections are metric-less is never in the affected set, so that user's
saved-items cache key is never deleted. -/
theorem claim10_absent_old_values_inert :
    (∀ (nd : NewData) (sel : Selection) (c : String × PyVal × F),
      c ∈ trackedComparisons sel nd → c.2.1 = PyVal.none → ¬ c.1 ∈ changesFor sel nd)
    ∧ (∀ (nd : NewData) (sel : Selection), allNoneB sel = true →
        processSelection nd sel = Option.none)
    ∧ (∀ (hasCache : Bool) (locs : List (NewData × List Selection)) (u : String),
        (∀ p ∈ locs, ∀ sel ∈ p.2, truthyS sel.userId = some u → allNoneB sel = true) →
        ¬ u ∈ (detectAndFlag hasCache locs).affected
          ∧ ¬ ("awaves:saved:" ++ u) ∈ (detectAndFlag hasCache locs).invalidated) := by
  have hproc : ∀ (nd : NewData) (sel : Selection), allNoneB sel = true →
      processSelection nd sel = Option.none := by
    intro nd sel h
    have hcf := allNone_changesFor nd sel h
    unfold processSelection
    rcases truthyS sel.userId with _ | u
    · rfl
    rcases truthyS sel.sortKey with _ | k
    · rfl
    rw [hcf]
    rfl
  refine ⟨?_, hproc, ?_⟩
  · intro nd sel c hc hnone hmem
    rw [changesFor] at hmem
    rcases List.mem_filterMap.mp hmem with ⟨a, ha, hfa⟩
    by_cases hcond : a.2.1 ≠ PyVal.none ∧ hasSignificantChange a.2.1 (.num a.2.2) = true
    · rw [if_pos hcond] at hfa
      have hname : a.1 = c.1 := Option.some.inj hfa
      simp only [trackedComparisons, List.mem_cons, List.not_mem_nil, or_false] at ha hc
      rcases ha with ha | ha | ha | ha | ha <;> rcases hc with hc | hc | hc | hc | hc <;>
        subst ha <;> subst hc <;>
        first
          | (exact hcond.1 hnone)
          | (dsimp only at hname; exact absurd hname (by decide))
    · rw [if_neg hcond] at hfa
      exact Option.noConfusion hfa
  · intro hasCache locs u hall
    have haff : ¬ u ∈ (detectAndFlag hasCache locs).affected := by
      intro hu
      unfold detectAndFlag at hu
      simp only at hu
      rcases (mem_foldl_addUser _ _ _).mp hu with hfalse | ⟨a, ha, hau⟩
      · exact absurd hfalse (List.not_mem_nil u)
      rcases List.mem_filter.mp ha with ⟨hamem, _⟩
      rcases (mem_foldl_append _ _ _ _).mp hamem with hfalse | ⟨p, hp, hap⟩
      · exact absurd hfalse (List.not_mem_nil a)
      rcases List.mem_filterMap.mp hap with ⟨sel, hsel, hps⟩
      have huid := processSelection_userId p.1 sel a hps
      rw [hau] at huid
      have := hproc p.1 sel (hall p hp sel hsel huid)
      rw [this] at hps
      exact Option.noConfusion hps
    refine ⟨haff, ?_⟩
    intro hk
    unfold detectAndFlag at hk haff
    simp only at hk haff
    split at hk
    · rcases List.mem_map.mp hk with ⟨u', hu', hequ⟩
      have : u' = u := by
        have hd := congrArg String.data hequ
        rw [String.data_append, String.data_append] at hd
        have := List.append_cancel_left hd
        exact String.ext this
      rw [this] at hu'
      exact haff hu'
    · exact absurd hk (List.not_mem_nil _)

/-- C10 witness: the concrete all-`None` selection yields no attempt, and a
run containing only it leaves its user unaffected and uninvalidated. -/
theorem claim10_witness :
    processSelection c5nd c10sel = Option.none
    ∧ (¬ "u2" ∈ (detectAndFlag true [(c5nd, [c10sel])]).affected
        ∧ ¬ ("awaves:saved:" ++ "u2") ∈ (detectAndFlag true [(c5nd, [c10sel])]).invalidated) :=
  ⟨claim10_absent_old_values_inert.2.1 c5nd c10sel (by decide),
   claim10_absent_old_values_inert.2.2 true [(c5nd, [c10sel])] "u2"
     (by intro p hp sel hsel _
         rcases List.mem_cons.mp hp with hp | hp
         · subst hp
           rcases List.mem_cons.mp hsel with hs | hs
           · subst hs; decide
           · exact absurd hs (List.not_mem_nil sel)
         · exact absurd hp (List.not_mem_nil p))⟩

/- ── Claim 2 ───────────────────────────────────────────────────────────── -/

theorem inWindowB_iff (date : String) (hStart : Nat) (it : RepoItem) :
    inWindowB date hStart it = true ↔
      ∃ h : Nat, hStart ≤ h ∧ h ≤ hStart + 2 ∧ h ≤ 23 ∧
        hasPfx it.surfTimestamp (date ++ "T" ++ pad2 h ++ ":") = true := by
  unfold inWindowB
  rw [List.any_eq_true]
  constructor
  · rintro ⟨off, hoff, hcond⟩
    rw [Bool.and_eq_true, decide_eq_true_iff] at hcond
    have hlt : off < 3 := List.mem_range.mp hoff
    exact ⟨hStart + off, Nat.le_add_right _ _, by omega, hcond.1, hcond.2⟩
  · rintro ⟨h, h1, h2, h3, h4⟩
    refine ⟨h - hStart, List.mem_range.mpr (by omega), ?_⟩
    rw [Bool.and_eq_true, decide_eq_true_iff]
    have he : hStart + (h - hStart) = h := by omega
    rw [he]
    exact ⟨h3, h4⟩

theorem repoTimeFilter_window (date t : String) (bucket : List RepoItem) (hStart : Nat)
    (hp : repoHourOf t = some hStart) :
    repoTimeFilter date t bucket =
      (if (bucket.filter (inWindowB date hStart)).isEmpty then bucket
       else bucket.filter (inWindowB date hStart)) := by
  have hpred : (fun it => ((List.range 3).filterMap (fun off =>
        if hStart + off ≤ 23 then some (date ++ "T" ++ pad2 (hStart + off) ++ ":")
        else none)).any (fun p => hasPfx it.surfTimestamp p)) = inWindowB date hStart := by
    funext it
    unfold inWindowB
    have hr : List.range 3 = [0, 1, 2] := rfl
    rw [hr]
    by_cases c0 : hStart ≤ 23 <;> by_cases c1 : hStart + 1 ≤ 23 <;>
      by_cases c2 : hStart + 2 ≤ 23 <;>
      simp [List.filterMap, c0, c1, c2]
  simp only [repoTimeFilter, hp]
  rw [hpred]

theorem putLocRepo_ne_nil (t0 : Option String) (acc : List RepoItem) (it : RepoItem) :
    putLocRepo t0 acc it ≠ [] := by
  unfold putLocRepo
  split
  · next hany =>
    rcases List.any_eq_true.mp hany with ⟨e, he, _⟩
    intro hmap
    rw [List.map_eq_nil] at hmap
    rw [hmap] at he
    exact List.not_mem_nil e he
  · simp

theorem repoReduce_ne_nil (t0 : Option String) (items : List RepoItem) (h : items ≠ []) :
    repoReduce t0 items ≠ [] := by
  have main : ∀ (l : List RepoItem) (acc : List RepoItem), acc ≠ [] →
      l.foldl (putLocRepo t0) acc ≠ [] := by
    intro l
    induction l with
    | nil => intro acc hacc; simpa using hacc
    | cons it rest ih =>
      intro acc _
      rw [List.foldl_cons]
      exact ih _ (putLocRepo_ne_nil t0 acc it)
  rcases items with _ | ⟨it, rest⟩
  · exact absurd rfl h
  · rw [repoReduce, List.foldl_cons]
    exact main rest _ (putLocRepo_ne_nil t0 [] it)

theorem repoTimeFilter_ne_nil (date t : String) (bucket : List RepoItem)
    (h : bucket ≠ []) : repoTimeFilter date t bucket ≠ [] := by
  unfold repoTimeFilter
  split
  · exact h
  · dsimp only
    split
    · next hm => exact h
    · next hm =>
      intro hc
      rw [hc] at hm
      exact hm rfl

/-- C2: with a parseable hour `H`, the repository's time filter keeps exactly
the records whose timestamp hour lies in the forward window `{H, H+1, H+2}`
clipped at 23 (membership characterized semantically), falling back to the
whole date bucket when the window matches nothing; consequently the query
result is never empty when the date has records. -/
theorem claim2_three_hour_window_with_fallback :
    (∀ (date t : String) (bucket : List RepoItem) (hStart : Nat),
      repoHourOf t = some hStart →
        repoTimeFilter date t bucket
          = (if (bucket.filter (inWindowB date hStart)).isEmpty then bucket
             else bucket.filter (inWindowB date hStart))
          ∧ ∀ it, inWindowB date hStart it = true ↔
              ∃ h : Nat, hStart ≤ h ∧ h ≤ hStart + 2 ∧ h ≤ 23 ∧
                hasPfx it.surfTimestamp (date ++ "T" ++ pad2 h ++ ":") = true)
    ∧ (∀ (date : String) (t : Option String) (bucket : List RepoItem),
        bucket ≠ [] → repoGetSpotsCore date t bucket ≠ []) := by
  constructor
  · intro date t bucket hStart hp
    exact ⟨repoTimeFilter_window date t bucket hStart hp, fun it => inWindowB_iff date hStart it⟩
  · intro date t bucket hne
    unfold repoGetSpotsCore
    have hie : bucket.isEmpty = false := by
      rcases bucket with _ | ⟨b, rest⟩
      · exact absurd rfl hne
      · rfl
    rw [if_neg (by rw [hie]; exact Bool.false_ne_true)]
    unfold repoProcess repoPreSort
    intro hc
    have hfil : (match truthyS t with
        | some tv => repoTimeFilter date tv bucket
        | none => bucket) ≠ [] := by
      rcases truthyS t with _ | tv
      · exact hne
      · exact repoTimeFilter_ne_nil date tv bucket hne
    have hred := repoReduce_ne_nil (truthyS t) _ hfil
    have hlen := congrArg List.length hc
    rw [pySortDescBy, List.length_insertionSort, List.length_map] at hlen
    simp only [List.length_nil] at hlen
    exact hred (List.eq_nil_of_length_eq_zero hlen)

/-- C2 witness: hour 5 yields the window `{05,06,07}` over the concrete
bucket (keeping both records), and any non-empty bucket yields a non-empty
result. -/
theorem claim2_witness :
    (repoTimeFilter "2026-02-14" "05:00" c2bucket
      = (if (c2bucket.filter (inWindowB "2026-02-14" 5)).isEmpty then c2bucket
         else c2bucket.filter (inWindowB "2026-02-14" 5)))
    ∧ repoGetSpotsCore "2026-02-14" (some "05:00") c2bucket ≠ [] :=
  ⟨(claim2_three_hour_window_with_fallback.1 "2026-02-14" "05:00" c2bucket 5 (by decide)).1,
   claim2_three_hour_window_with_fallback.2 "2026-02-14" (some "05:00") c2bucket
     (by unfold c2bucket; exact List.cons_ne_nil _ _)⟩

/- ── Claim 6 ───────────────────────────────────────────────────────────── -/

theorem descRel_total {α : Type} (key : α → F) :
    ∀ a b : α, F.leB (key b) (key a) = true ∨ F.leB (key a) (key b) = true := by
  intro a b
  rcases le_total (toRat (key b)) (toRat (key a)) with h | h
  · exact Or.inl ((leB_iff _ _).mpr h)
  · exact Or.inr ((leB_iff _ _).mpr h)

theorem descRel_trans {α : Type} (key : α → F) :
    ∀ a b c : α, F.leB (key b) (key a) = true → F.leB (key c) (key b) = true →
      F.leB (key c) (key a) = true := by
  intro a b c hab hbc
  exact (leB_iff _ _).mpr (le_trans ((leB_iff _ _).mp hbc) ((leB_iff _ _).mp hab))

theorem pySortDescBy_sorted {α : Type} (key : α → F) (l : List α) :
    (pySortDescBy key l).Pairwise (fun a b => toRat (key b) ≤ toRat (key a)) := by
  haveI htot : IsTotal α (fun a b => F.leB (key b) (key a) = true) :=
    ⟨fun a b => (descRel_total key a b).elim Or.inl Or.inr⟩
  haveI htr : IsTrans α (fun a b => F.leB (key b) (key a) = true) :=
    ⟨fun a b c hab hbc => descRel_trans key a b c hab hbc⟩
  have hs : (pySortDescBy key l).Pairwise (fun a b => F.leB (key b) (key a) = true) := by
    unfold pySortDescBy
    exact List.sorted_insertionSort _ l
  exact hs.imp (fun h => (leB_iff _ _).mp h)

theorem pySortDescBy_perm {α : Type} (key : α → F) (l : List α) :
    List.Perm (pySortDescBy key l) l := by
  unfold pySortDescBy
  exact List.perm_insertionSort _ l

theorem pySortDescBy_stable {α : Type} (key : α → F) (l : List α) (q : ℚ) :
    (pySortDescBy key l).filter (fun s => decide (toRat (key s) = q))
      = l.filter (fun s => decide (toRat (key s) = q)) := by
  haveI htot : IsTotal α (fun a b => F.leB (key b) (key a) = true) :=
    ⟨fun a b => (descRel_total key a b).elim Or.inl Or.inr⟩
  haveI htr : IsTrans α (fun a b => F.leB (key b) (key a) = true) :=
    ⟨fun a b c hab hbc => descRel_trans key a b c hab hbc⟩
  have hpair : (l.filter (fun s => decide (toRat (key s) = q))).Pairwise
      (fun a b => F.leB (key b) (key a) = true) := by
    apply List.pairwise_of_forall_mem_list
    intro a ha b hb
    have hqa : toRat (key a) = q := of_decide_eq_true (List.mem_filter.mp ha).2
    have hqb : toRat (key b) = q := of_decide_eq_true (List.mem_filter.mp hb).2
    exact (leB_iff _ _).mpr (by rw [hqa, hqb])
  have hsub : List.Sublist (l.filter (fun s => decide (toRat (key s) = q))) (pySortDescBy key l) := by
    unfold pySortDescBy
    exact List.sublist_insertionSort hpair (List.filter_sublist l)
  have hsub2 : List.Sublist (l.filter (fun s => decide (toRat (key s) = q)))
      ((pySortDescBy key l).filter (fun s => decide (toRat (key s) = q))) := by
    have hff := hsub.filter (fun s => decide (toRat (key s) = q))
    rwa [List.filter_filter, (by funext a; rw [Bool.and_self] :
      (fun a => decide (toRat (key a) = q) && decide (toRat (key a) = q))
        = fun a => decide (toRat (key a) = q))] at hff
  have hlen : ((pySortDescBy key l).filter (fun s => decide (toRat (key s) = q))).length
      = (l.filter (fun s => decide (toRat (key s) = q))).length :=
    ((pySortDescBy_perm key l).filter _).length_eq
  exact (hsub2.eq_of_length hlen.symm).symm

theorem derivedMetricsOf_flat (derived : List (String × AttrV)) (h : flatShapedB derived = true) :
    derivedMetricsOf derived =
      [("BEGINNER", flatEntry derived), ("INTERMEDIATE", flatEntry derived),
       ("ADVANCED", flatEntry derived)] := by
  unfold flatShapedB at h
  simp only [Bool.and_eq_true] at h
  obtain ⟨⟨h1, h2⟩, h3⟩ := h
  unfold derivedMetricsOf
  simp [List.filterMap, h1, h2, h3]

/-- C6: the query result is the stable descending sort of the converted spot
list by the INTERMEDIATE surf score — sorted descending, a permutation of
the pre-sort list, with records of numerically equal score kept in their
original relative order — and a flat-shaped record is normalized into the
per-level form (all three levels carrying the flat score/grade), so its
INTERMEDIATE sort key is its flat score. -/
theorem claim6_sorted_stable_normalized :
    (∀ (date : String) (t : Option String) (bucket : List RepoItem),
      (repoGetSpotsCore date t bucket).Pairwise
        (fun a b => toRat (repoSortKey b) ≤ toRat (repoSortKey a)))
    ∧ (∀ (date : String) (t0 : Option String) (bucket : List RepoItem),
        List.Perm (repoProcess date t0 bucket) (repoPreSort date t0 bucket))
    ∧ (∀ (date : String) (t0 : Option String) (bucket : List RepoItem) (q : ℚ),
        (repoProcess date t0 bucket).filter (fun s => decide (toRat (repoSortKey s) = q))
          = (repoPreSort date t0 bucket).filter (fun s => decide (toRat (repoSortKey s) = q)))
    ∧ (∀ derived : List (String × AttrV), flatShapedB derived = true →
        derivedMetricsOf derived =
          [("BEGINNER", flatEntry derived), ("INTERMEDIATE", flatEntry derived),
           ("ADVANCED", flatEntry derived)]
          ∧ dictGet (derivedMetricsOf derived) "INTERMEDIATE" = some (flatEntry derived)) := by
  refine ⟨?_, ?_, ?_, ?_⟩
  · intro date t bucket
    unfold repoGetSpotsCore
    split
    · exact List.Pairwise.nil
    · exact pySortDescBy_sorted repoSortKey _
  · intro date t0 bucket
    exact pySortDescBy_perm repoSortKey _
  · intro date t0 bucket q
    exact pySortDescBy_stable repoSortKey _ q
  · intro derived h
    refine ⟨derivedMetricsOf_flat derived h, ?_⟩
    rw [derivedMetricsOf_flat derived h]
    simp [dictGet]

/-- C6 witness: instantiation on the concrete bucket and on the flat-shaped
item's `derivedMetrics`. -/
theorem claim6_witness :
    (repoGetSpotsCore "2026-02-14" Option.none c2bucket).Pairwise
      (fun a b => toRat (repoSortKey b) ≤ toRat (repoSortKey a))
    ∧ (derivedMetricsOf (getMattr c6flatItem.attrs "derivedMetrics") =
        [("BEGINNER", flatEntry (getMattr c6flatItem.attrs "derivedMetrics")),
         ("INTERMEDIATE", flatEntry (getMattr c6flatItem.attrs "derivedMetrics")),
         ("ADVANCED", flatEntry (getMattr c6flatItem.attrs "derivedMetrics"))]
        ∧ dictGet (derivedMetricsOf (getMattr c6flatItem.attrs "derivedMetrics")) "INTERMEDIATE"
            = some (flatEntry (getMattr c6flatItem.attrs "derivedMetrics"))) :=
  ⟨claim6_sorted_stable_normalized.1 "2026-02-14" Option.none c2bucket,
   claim6_sorted_stable_normalized.2.2.2 (getMattr c6flatItem.attrs "derivedMetrics") (by decide)⟩

/- ── Claim 3 ───────────────────────────────────────────────────────────── -/

theorem truthyS_idem (t : Option String) : truthyS (truthyS t) = truthyS t := by
  cases t with
  | none => rfl
  | some s =>
    by_cases h : s = "" <;> simp [truthyS, h]

theorem truthyS_norm (t : Option String) (s : String) (h : truthyS t = some s) : s ≠ "" := by
  cases t with
  | none => exact Option.noConfusion h
  | some a =>
    simp only [truthyS] at h
    by_cases ha : a = ""
    · rw [if_pos ha] at h
      exact Option.noConfusion h
    · rw [if_neg ha] at h
      exact (Option.some.inj h) ▸ ha

theorem getD_truthyS_inj (t t' : Option String)
    (h : (truthyS t).getD "" = (truthyS t').getD "") : truthyS t = truthyS t' := by
  rcases ht : truthyS t with _ | s
  · rcases ht' : truthyS t' with _ | s'
    · rfl
    · rw [ht, ht'] at h
      simp only [Option.getD_none, Option.getD_some] at h
      exact absurd h.symm (truthyS_norm t' s' ht')
  · rcases ht' : truthyS t' with _ | s'
    · rw [ht, ht'] at h
      simp only [Option.getD_none, Option.getD_some] at h
      exact absurd h (truthyS_norm t s ht)
    · rw [ht, ht'] at h
      simp only [Option.getD_some] at h
      rw [h]

theorem computeForDate_truthyS (idx : List (String × List DynItem)) (d : String)
    (t : Option String) : computeForDate idx d (truthyS t) = computeForDate idx d t := by
  unfold computeForDate
  rw [truthyS_idem]

theorem mkKey_truthyS (d : String) (t : Option String) : mkKey d (truthyS t) = mkKey d t := by
  unfold mkKey
  rw [truthyS_idem]

theorem append_sep_inj (c : Char) : ∀ (xs ys zs ws : List Char), ¬ c ∈ xs → ¬ c ∈ ys →
    xs ++ c :: zs = ys ++ c :: ws → xs = ys ∧ zs = ws := by
  intro xs
  induction xs with
  | nil =>
    intro ys zs ws _ hys h
    cases ys with
    | nil =>
      simp only [List.nil_append] at h
      exact ⟨rfl, (List.cons.inj h).2⟩
    | cons y yt =>
      simp only [List.nil_append, List.cons_append] at h
      have hc := (List.cons.inj h).1
      have : c ∈ y :: yt := by rw [hc]; exact List.mem_cons_self y yt
      exact absurd this hys
  | cons x xt ih =>
    intro ys zs ws hxs hys h
    cases ys with
    | nil =>
      simp only [List.cons_append, List.nil_append] at h
      have hc := (List.cons.inj h).1
      have : c ∈ x :: xt := by rw [← hc]; exact List.mem_cons_self x xt
      exact absurd this hxs
    | cons y yt =>
      simp only [List.cons_append] at h
      have h1 := (List.cons.inj h).1
      have h2 := (List.cons.inj h).2
      have hxs' : ¬ c ∈ xt := fun hm => hxs (List.mem_cons_of_mem x hm)
      have hys' : ¬ c ∈ yt := fun hm => hys (List.mem_cons_of_mem y hm)
      obtain ⟨he, hz⟩ := ih yt zs ws hxs' hys' h2
      exact ⟨by rw [h1, he], hz⟩

theorem dateWF_not_sep (d : String) (h : dateWFb d = true) : ¬ '|' ∈ d.data := by
  unfold dateWFb at h
  rw [Bool.and_eq_true, decide_eq_true_iff, decide_eq_true_iff] at h
  exact h.2

theorem mkKey_data (d : String) (t : Option String) :
    (mkKey d t).data = d.data ++ '|' :: ((truthyS t).getD "").data := by
  unfold mkKey
  rw [String.data_append, String.data_append, List.append_assoc]
  rfl

theorem mkKey_inj (d d' : String) (t t' : Option String)
    (hd : dateWFb d = true) (hd' : dateWFb d' = true) (h : mkKey d t = mkKey d' t') :
    d = d' ∧ truthyS t = truthyS t' := by
  have hdata := congrArg String.data h
  rw [mkKey_data, mkKey_data] at hdata
  obtain ⟨h1, h2⟩ := append_sep_inj '|' d.data d'.data _ _
    (dateWF_not_sep d hd) (dateWF_not_sep d' hd') hdata
  exact ⟨String.ext h1, getD_truthyS_inj t t' (String.ext h2)⟩

theorem cacheWF_tick (s : CState) (dt : Nat) (h : cacheWF s) : cacheWF (tick s dt) := h

theorem cacheWF_refresh (items : List DynItem) (s : CState) :
    cacheWF (refreshState items s) := by
  intro d t v _ _ hv
  exact Option.noConfusion hv

theorem cacheWF_scanStep (s : CState) (r : Except Unit (List DynItem)) (h : cacheWF s) :
    cacheWF (scanStep s r).2 := by
  unfold scanStep scanAllItemsR
  by_cases hc : s.scanCache.isEmpty = false ∧ s.clock - s.scanCacheTime < scanTTL
  · rw [if_pos hc]
    exact h
  · rw [if_neg hc]
    cases r with
    | ok items => exact cacheWF_refresh items s
    | error e => exact h

theorem getSpots_coherent (s : CState) (date : String) (t : Option String)
    (r : Except Unit (List DynItem)) (hwf : cacheWF s) (hd : dateWFb date = true) :
    (getSpotsForDate s date t r).1
      = computeForDate (getSpotsForDate s date t r).2.dateIndex date t
    ∧ cacheWF (getSpotsForDate s date t r).2 := by
  simp only [getSpotsForDate]
  by_cases hcond : s.spotsCacheTime ≥ s.scanCacheTime ∧ s.scanCacheTime > 0 ∧
      (dictGet s.spotsCache (mkKey date t)).isSome = true
  · rw [if_pos hcond]
    rcases Option.isSome_iff_exists.mp hcond.2.2 with ⟨v, hv⟩
    constructor
    · show (dictGet s.spotsCache (mkKey date t)).getD [] = computeForDate s.dateIndex date t
      rw [hv]
      show v = computeForDate s.dateIndex date t
      have hkey : dictGet s.spotsCache (mkKey date (truthyS t)) = some v := by
        rw [mkKey_truthyS]
        exact hv
      have hval := hwf date (truthyS t) v hd (truthyS_idem t) hkey
      rw [hval, computeForDate_truthyS]
    · exact hwf
  · rw [if_neg hcond]
    have hwf1 : cacheWF (scanStep s r).2 := cacheWF_scanStep s r hwf
    by_cases hempty : (idxGet (scanStep s r).2.dateIndex date).isEmpty = true
    · rw [if_pos hempty]
      refine ⟨?_, hwf1⟩
      show ([] : List SurfInfoDyn) = computeForDate (scanStep s r).2.dateIndex date t
      unfold computeForDate
      rw [if_pos hempty]
    · rw [if_neg hempty]
      constructor
      · show dynProcess date (truthyS t) (idxGet (scanStep s r).2.dateIndex date)
          = computeForDate (scanStep s r).2.dateIndex date t
        unfold computeForDate
        rw [if_neg hempty]
      · intro d' t' v hd' ht' hv
        dsimp only at hv
        rw [dictGet_dictSet] at hv
        by_cases heq : mkKey d' t' = mkKey date t
        · rw [if_pos heq] at hv
          obtain ⟨hdd, htt⟩ := mkKey_inj d' date t' t hd' hd heq
          subst hdd
          have hv' := (Option.some.inj hv).symm
          show v = computeForDate (scanStep s r).2.dateIndex d' t'
          unfold computeForDate
          rw [if_neg hempty, htt]
          exact hv'
        · rw [if_neg heq] at hv
          exact hwf1 d' t' v hd' ht' hv

theorem cacheWF_applyOp (s : CState) (op : QOp) (h : cacheWF s) (hop : opWFb op = true) :
    cacheWF (applyOp s op) := by
  cases op with
  | scanQ dt r => exact cacheWF_scanStep (tick s dt) r (cacheWF_tick s dt h)
  | dateQ dt date t r =>
    exact (getSpots_coherent (tick s dt) date t r (cacheWF_tick s dt h) hop).2

theorem cacheWF_applyOps (ops : List QOp) : ∀ (s : CState), cacheWF s → opsWFb ops = true →
    cacheWF (applyOps s ops) := by
  induction ops with
  | nil =>
    intro s h _
    exact h
  | cons op rest ih =>
    intro s h hops
    unfold opsWFb at hops
    rw [List.all_cons, Bool.and_eq_true] at hops
    exact ih (applyOp s op) (cacheWF_applyOp s op h hops.1) hops.2

theorem idxGet_foldl (items : List DynItem) :
    ∀ (acc : List (String × List DynItem)) (d : String),
      idxGet (items.foldl idxAdd acc) d
        = idxGet acc d ++ items.filter (fun it => decide (pySlice it.surfTimestamp 0 10 = d)) := by
  induction items with
  | nil =>
    intro acc d
    simp
  | cons it rest ih =>
    intro acc d
    rw [List.foldl_cons, ih]
    have hstep : idxGet (idxAdd acc it) d
        = idxGet acc d ++ (if pySlice it.surfTimestamp 0 10 = d then [it] else []) := by
      unfold idxAdd idxGet
      rw [dictGet_dictSet]
      by_cases hk : d = pySlice it.surfTimestamp 0 10
      · subst hk
        simp
      · rw [if_neg hk, if_neg (fun hh => hk hh.symm)]
        simp
    rw [hstep, List.filter_cons]
    by_cases hp : pySlice it.surfTimestamp 0 10 = d
    · simp [hp, List.append_assoc]
    · simp [hp]

theorem idxGet_buildIndex (items : List DynItem) (d : String) :
    idxGet (buildIndex items) d
      = items.filter (fun it => decide (pySlice it.surfTimestamp 0 10 = d)) := by
  rw [buildIndex, idxGet_foldl]
  simp [idxGet, dictGet]

/-- C3: a snapshot refresh replaces the snapshot, rebuilds the date index
from it (each date key holding exactly that date's records), and clears the
per-date result cache in the same step; and any date query issued after the
refresh — through any sequence of well-formed operations — returns exactly
the recomputation from the then-current date index, so no result cached
under an earlier snapshot generation is ever served. -/
theorem claim3_refresh_coherence
    (items : List DynItem) (s0 : CState) (ops : List QOp) (dt : Nat)
    (date dQ : String) (t : Option String) (r : Except Unit (List DynItem))
    (hops : opsWFb ops = true) (hdate : dateWFb date = true) :
    (refreshState items s0).spotsCache = []
    ∧ idxGet (refreshState items s0).dateIndex dQ
        = items.filter (fun it => decide (pySlice it.surfTimestamp 0 10 = dQ))
    ∧ (getSpotsForDate (tick (applyOps (refreshState items s0) ops) dt) date t r).1
        = computeForDate
            (getSpotsForDate (tick (applyOps (refreshState items s0) ops) dt) date t r).2.dateIndex
            date t := by
  refine ⟨rfl, idxGet_buildIndex items dQ, ?_⟩
  have hwf : cacheWF (applyOps (refreshState items s0) ops) :=
    cacheWF_applyOps ops (refreshState items s0) (cacheWF_refresh items s0) hops
  exact (getSpots_coherent (tick _ dt) date t r (cacheWF_tick _ dt hwf) hdate).1

/-- C3 witness: after refreshing with one record, a query (whose own scan
fails) still serves exactly the current-index computation. -/
theorem claim3_witness :
    (refreshState [c3item] initC).spotsCache = []
    ∧ idxGet (refreshState [c3item] initC).dateIndex "2026-02-14"
        = [c3item].filter (fun it => decide (pySlice it.surfTimestamp 0 10 = "2026-02-14"))
    ∧ (getSpotsForDate (tick (applyOps (refreshState [c3item] initC) []) 1)
          "2026-02-14" Option.none (Except.error ())).1
        = computeForDate
            (getSpotsForDate (tick (applyOps (refreshState [c3item] initC) []) 1)
              "2026-02-14" Option.none (Except.error ())).2.dateIndex
            "2026-02-14" Option.none :=
  claim3_refresh_coherence [c3item] initC [] 1 "2026-02-14" "2026-02-14" Option.none
    (Except.error ()) (by decide) (by decide)
